import Mathlib

/-!
Shallow embedding of the configuration subsystem of pySeasonal
(`src/pyseasonal/utils/config.py`): path expansion (`_build_paths`),
path validation (`_check_paths_exist`) and the loader (`load_config`),
together with the store-selection loading mode described by the spec.

Python dicts are embedded as insertion-ordered association lists; the
YAML values the data model uses (path strings and nested mappings) as
the inductive `Val`; raised exceptions as `Except PyErr`; the filesystem
at the moment of validation as a predicate `fs : String → Bool`; an
environment variable as an `Option String` (`none` = unset).
-/

namespace Config

/-- A YAML value as the configuration data model uses it: a string (a
path, filename or glob pattern) or a mapping (a Python dict, embedded as
an insertion-ordered association list). -/
inductive Val where
  | str : String → Val
  | dict : List (String × Val) → Val

/-- The Python exceptions the module can raise or propagate.
`fileNotFound k p` carries the key and path interpolated into the
`FileNotFoundError` message of `_check_paths_exist`; `unknownStore`
is the configuration error of the spec's store-selection mode. -/
inductive PyErr where
  | typeError : PyErr
  | attributeError : PyErr
  | keyError : String → PyErr
  | fileNotFound : String → String → PyErr
  | parseError : PyErr
  | unknownStore : String → PyErr
deriving DecidableEq

/-- Whether `pre` is a leading segment of `l` (helper for the Python
substring test). -/
def listPre : List Char → List Char → Bool
  | [], _ => true
  | _ :: _, [] => false
  | a :: as, b :: bs => a == b && listPre as bs

/-- Whether `needle` occurs contiguously inside `l`. -/
def listSub (needle : List Char) : List Char → Bool
  | [] => needle.isEmpty
  | c :: cs => listPre needle (c :: cs) || listSub needle cs

/-- Python's substring test `needle in hay` on strings. -/
def strContains (hay needle : String) : Bool :=
  listSub needle.data hay.data

/-- The guard of the loop of `_build_paths`: keys skipped by expansion
(`key == "home" or key == "dir_output" or "filename" in key`). -/
def buildSkip (k : String) : Bool :=
  k == "home" || k == "dir_output" || strContains k "filename"

/-- Python `+` on the value shapes of the data model: concatenation on
two strings; every other combination (`str + dict`, `dict + str`,
`dict + dict`) raises `TypeError`. -/
def pyAdd : Val → Val → Except PyErr Val
  | Val.str a, Val.str b => Except.ok (Val.str (a ++ b))
  | _, _ => Except.error PyErr.typeError

/-- `os.getenv("DATA_DIR", paths_dict.get("home", ""))` in
`_build_paths`: the environment value whenever the variable is set (even
when set to the empty string), else the dict's `home` value, else `""`. -/
def resolveBase (env : Option String) (d : List (String × Val)) : Val :=
  match env with
  | some s => Val.str s
  | none =>
    match d.lookup "home" with
    | some v => v
    | none => Val.str ""

/-- The loop of `_build_paths` over the items, with the base directory
already resolved: skipped keys keep their value, every other value is
replaced by `base + value`. Reassigning a value during Python dict
iteration neither reorders nor re-keys the items, so the loop is the
pointwise pass embedded here. -/
def buildPathsBase (base : Val) : List (String × Val) → Except PyErr (List (String × Val))
  | [] => Except.ok []
  | (k, v) :: rest =>
    if buildSkip k then
      (buildPathsBase base rest).map (fun r => (k, v) :: r)
    else
      match pyAdd base v with
      | Except.error e => Except.error e
      | Except.ok w => (buildPathsBase base rest).map (fun r => (k, w) :: r)

/-- `_build_paths` of `config.py`: resolve the base directory from the
`DATA_DIR` environment variable or the dict's `home` entry, then expand
every non-skipped value by string concatenation. -/
def _build_paths (env : Option String) (d : List (String × Val)) :
    Except PyErr (List (String × Val)) :=
  buildPathsBase (resolveBase env d) d

/-- `Val.str ""`, as Python's `path == ""` sees it: true exactly on the
empty string (a dict compared to `""` is `False`, not an error). -/
def isEmptyStr : Val → Bool
  | Val.str s => s == ""
  | _ => false

/-- `_check_paths_exist` of `config.py`: walk the items in order, skip
keys containing `filename` and an empty-string `home`, call
`os.path.exists` on each remaining value (`TypeError` on a non-string
value, as `os.path.exists` raises on one), and raise `FileNotFoundError`
naming the key and value at the first value that does not exist;
return `True` when the walk finishes. -/
def _check_paths_exist (fs : String → Bool) : List (String × Val) → Except PyErr Bool
  | [] => Except.ok true
  | (k, v) :: rest =>
    if strContains k "filename" then _check_paths_exist fs rest
    else if k == "home" && isEmptyStr v then _check_paths_exist fs rest
    else
      match v with
      | Val.str s =>
        if fs s then _check_paths_exist fs rest
        else Except.error (PyErr.fileNotFound k s)
      | Val.dict _ => Except.error PyErr.typeError

/-- `config["paths"] = value` on an insertion-ordered dict: the value at
the key is replaced, the key keeps its position. -/
def replaceKey (d : List (String × Val)) (k : String) (v : Val) : List (String × Val) :=
  d.map (fun kv => if kv.1 == k then (kv.1, v) else kv)

/-- The call `_build_paths(config["paths"])`: iterating `.items()` of a
non-dict value raises `AttributeError`. -/
def buildPathsVal (env : Option String) : Val → Except PyErr (List (String × Val))
  | Val.dict d => _build_paths env d
  | _ => Except.error PyErr.attributeError

/-- `load_config` of `config.py`, from the outcome of
`open` + `yaml.safe_load` onward: `src` is that outcome (`Except.error`
when the file is missing or the text does not parse; `Except.ok none`
when the document is empty, since `yaml.safe_load` returns `None` then,
and subscripting `None` raises `TypeError`; likewise subscripting a
scalar document). The `print` diagnostic is not modelled. On a parsed
dict: look up `paths` (`KeyError` when absent), expand it with
`_build_paths`, store the result back, check it with
`_check_paths_exist`, and return the document on `True`, the empty dict
otherwise. -/
def load_config (env : Option String) (fs : String → Bool)
    (src : Except PyErr (Option Val)) : Except PyErr Val :=
  match src with
  | Except.error e => Except.error e
  | Except.ok none => Except.error PyErr.typeError
  | Except.ok (some (Val.str _)) => Except.error PyErr.typeError
  | Except.ok (some (Val.dict conf)) =>
    match conf.lookup "paths" with
    | none => Except.error (PyErr.keyError "paths")
    | some pv =>
      match buildPathsVal env pv with
      | Except.error e => Except.error e
      | Except.ok built =>
        match _check_paths_exist fs built with
        | Except.error e => Except.error e
        | Except.ok ok =>
          if ok then Except.ok (Val.dict (replaceKey conf "paths" (Val.dict built)))
          else Except.ok (Val.dict [])

/-- Modelled from the spec: the store-selection mode of ConfigLoader,
whose code is not under `src/` (only flat mode is). Per the spec: the
`paths` entry maps store identifiers to PathGroups; the store-selector
environment variable names the active store, with the fixed default
identifier `lustre` when it is unset; the named group is selected; an
identifier absent from the mapping is a configuration error naming the
invalid identifier (unknown store); the selected group is validated by
PathValidator with no prefix-expansion applied, and the document is
returned with `paths` replaced by the group. -/
def load_config_store (storeEnv : Option String) (fs : String → Bool)
    (src : Except PyErr (Option Val)) : Except PyErr Val :=
  match src with
  | Except.error e => Except.error e
  | Except.ok none => Except.error PyErr.parseError
  | Except.ok (some (Val.str _)) => Except.error PyErr.typeError
  | Except.ok (some (Val.dict conf)) =>
    match conf.lookup "paths" with
    | none => Except.error (PyErr.keyError "paths")
    | some (Val.str _) => Except.error PyErr.typeError
    | some (Val.dict stores) =>
      match stores.lookup (storeEnv.getD "lustre") with
      | none => Except.error (PyErr.unknownStore (storeEnv.getD "lustre"))
      | some (Val.str _) => Except.error PyErr.typeError
      | some (Val.dict grp) =>
        match _check_paths_exist fs grp with
        | Except.error e => Except.error e
        | Except.ok _ => Except.ok (Val.dict (replaceKey conf "paths" (Val.dict grp)))

/-- The pairs `_check_paths_exist` actually checks, on a string-valued
group: the key does not contain `filename` and is not `home` holding the
empty string. -/
def eligible (k : String) (s : String) : Bool :=
  !(strContains k "filename") && !(k == "home" && s == "")

/-- A string-valued PathGroup, injected into the value model. -/
def strDict (d : List (String × String)) : List (String × Val) :=
  d.map (fun p => (p.1, Val.str p.2))


/-- A value equals the empty-string value exactly when `isEmptyStr` holds. -/
theorem isEmptyStr_iff (v : Val) : isEmptyStr v = true ↔ v = Val.str "" := by
  cases v with
  | str s => simp [isEmptyStr]
  | dict m => simp [isEmptyStr]

/-- `_check_paths_exist` never returns `False`: a returned Boolean is `True`. -/
theorem check_ok_true (fs : String → Bool) :
    ∀ (d : List (String × Val)) (b : Bool), _check_paths_exist fs d = Except.ok b → b = true := by
  intro d
  induction d with
  | nil =>
    intro b h
    simp only [_check_paths_exist] at h
    exact (Except.ok.inj h).symm
  | cons hd tl ih =>
    intro b h
    obtain ⟨k, v⟩ := hd
    simp only [_check_paths_exist] at h
    split at h
    · exact ih b h
    · split at h
      · exact ih b h
      · split at h
        · split at h
          · exact ih b h
          · exact Except.noConfusion h
        · exact Except.noConfusion h

/-- A pair checked successfully and not exempt holds an existing string path. -/
theorem check_ok_mem (fs : String → Bool) :
    ∀ (d : List (String × Val)), _check_paths_exist fs d = Except.ok true →
      ∀ k v, (k, v) ∈ d → strContains k "filename" = false →
        ¬(k = "home" ∧ v = Val.str "") → ∃ s, v = Val.str s ∧ fs s = true := by
  intro d
  induction d with
  | nil =>
    intro _ k v hm
    cases hm
  | cons hd tl ih =>
    intro h k v hm hf hh
    obtain ⟨k0, v0⟩ := hd
    simp only [_check_paths_exist] at h
    rcases List.mem_cons.mp hm with heq | htl
    · injection heq with hk hv
      subst hk
      subst hv
      rw [hf] at h
      simp only [Bool.false_eq_true, if_false] at h
      rcases Bool.eq_false_or_eq_true (k == "home" && isEmptyStr v) with hg | hg
      · simp only [Bool.and_eq_true, beq_iff_eq, isEmptyStr_iff] at hg
        exact absurd hg hh
      · rw [hg] at h
        simp only [Bool.false_eq_true, if_false] at h
        cases v with
        | str s =>
          refine ⟨s, rfl, ?_⟩
          have h2 : (if fs s = true then _check_paths_exist fs tl
              else Except.error (PyErr.fileNotFound k s)) = Except.ok true := h
          rcases Bool.eq_false_or_eq_true (fs s) with hfs | hfs
          · exact hfs
          · rw [hfs] at h2
            simp only [Bool.false_eq_true, if_false] at h2
            exact Except.noConfusion h2
        | dict m =>
          have h2 : (Except.error PyErr.typeError : Except PyErr Bool) = Except.ok true := h
          exact Except.noConfusion h2
    · split at h
      · exact ih h k v htl hf hh
      · split at h
        · exact ih h k v htl hf hh
        · split at h
          · split at h
            · exact ih h k v htl hf hh
            · exact Except.noConfusion h
          · exact Except.noConfusion h


/-- `pyAdd` can only fail with `TypeError`. -/
theorem pyAdd_error (a b : Val) (e : PyErr) (h : pyAdd a b = Except.error e) :
    e = PyErr.typeError := by
  cases a with
  | str sa =>
    cases b with
    | str sb => exact Except.noConfusion h
    | dict m => exact (Except.error.inj h).symm
  | dict m =>
    cases b with
    | str sb => exact (Except.error.inj h).symm
    | dict m2 => exact (Except.error.inj h).symm

/-- Adding a mapping on the right always raises `TypeError`. -/
theorem pyAdd_dict (a : Val) (m : List (String × Val)) :
    pyAdd a (Val.dict m) = Except.error PyErr.typeError := by
  cases a with
  | str s => rfl
  | dict m2 => rfl

/-- Inversion of one successful step of the expansion loop. -/
theorem buildPathsBase_cons_ok (base : Val) (k : String) (v : Val)
    (tl r : List (String × Val))
    (h : buildPathsBase base ((k, v) :: tl) = Except.ok r) :
    ∃ w tr, buildPathsBase base tl = Except.ok tr ∧ r = (k, w) :: tr ∧
      ((buildSkip k = true ∧ w = v) ∨
       (buildSkip k = false ∧ ∃ b s, base = Val.str b ∧ v = Val.str s ∧
         w = Val.str (b ++ s))) := by
  simp only [buildPathsBase] at h
  rcases Bool.eq_false_or_eq_true (buildSkip k) with hk | hk
  · rw [hk] at h
    simp only [if_true] at h
    cases hb : buildPathsBase base tl with
    | error e =>
      rw [hb] at h
      exact Except.noConfusion h
    | ok tr =>
      rw [hb] at h
      simp only [Except.map] at h
      exact ⟨v, tr, rfl, (Except.ok.inj h).symm, Or.inl ⟨hk, rfl⟩⟩
  · rw [hk] at h
    simp only [Bool.false_eq_true, if_false] at h
    cases hp : pyAdd base v with
    | error e =>
      rw [hp] at h
      exact Except.noConfusion h
    | ok w =>
      rw [hp] at h
      cases hb : buildPathsBase base tl with
      | error e =>
        rw [hb] at h
        exact Except.noConfusion h
      | ok tr =>
        rw [hb] at h
        simp only [Except.map] at h
        refine ⟨w, tr, rfl, (Except.ok.inj h).symm, Or.inr ⟨hk, ?_⟩⟩
        cases base with
        | str b =>
          cases v with
          | str s => exact ⟨b, s, rfl, rfl, (Except.ok.inj hp.symm)⟩
          | dict m => exact Except.noConfusion hp
        | dict m => exact Except.noConfusion hp

/-- Successful expansion keeps the key list unchanged. -/
theorem buildPathsBase_keys (base : Val) :
    ∀ (d r : List (String × Val)), buildPathsBase base d = Except.ok r →
      r.map Prod.fst = d.map Prod.fst := by
  intro d
  induction d with
  | nil =>
    intro r h
    cases (Except.ok.inj h)
    rfl
  | cons hd tl ih =>
    intro r h
    obtain ⟨k, v⟩ := hd
    obtain ⟨w, tr, htl, hr, _⟩ := buildPathsBase_cons_ok base k v tl r h
    subst hr
    simp [ih tr htl]

/-- Successful expansion keeps every skipped pair verbatim. -/
theorem buildPathsBase_mem_skip (base : Val) :
    ∀ (d r : List (String × Val)), buildPathsBase base d = Except.ok r →
      ∀ k v, (k, v) ∈ d → buildSkip k = true → (k, v) ∈ r := by
  intro d
  induction d with
  | nil =>
    intro r h k v hm
    cases hm
  | cons hd tl ih =>
    intro r h k v hm hk
    obtain ⟨k0, v0⟩ := hd
    obtain ⟨w, tr, htl, hr, hcase⟩ := buildPathsBase_cons_ok base k0 v0 tl r h
    subst hr
    rcases List.mem_cons.mp hm with heq | htlmem
    · injection heq with hk0 hv0
      subst hk0
      subst hv0
      rcases hcase with ⟨_, hw⟩ | ⟨hks, _⟩
      · subst hw
        exact List.mem_cons_self _ _
      · rw [hk] at hks
        exact Bool.noConfusion hks
    · exact List.mem_cons_of_mem _ (ih tr htl k v htlmem hk)

/-- Pointwise description of a successful expansion: same length, skipped
entries kept, every other entry rewritten to base-concatenated strings. -/
theorem buildPathsBase_get (base : Val) :
    ∀ (d r : List (String × Val)), buildPathsBase base d = Except.ok r →
      r.length = d.length ∧
      ∀ i (hi : i < d.length) (hi2 : i < r.length),
        (buildSkip (d.get ⟨i, hi⟩).1 = true → r.get ⟨i, hi2⟩ = d.get ⟨i, hi⟩) ∧
        (buildSkip (d.get ⟨i, hi⟩).1 = false →
          ∃ b s, base = Val.str b ∧ (d.get ⟨i, hi⟩).2 = Val.str s ∧
            r.get ⟨i, hi2⟩ = ((d.get ⟨i, hi⟩).1, Val.str (b ++ s))) := by
  intro d
  induction d with
  | nil =>
    intro r h
    cases (Except.ok.inj h)
    exact ⟨rfl, fun i hi => absurd hi (Nat.not_lt_zero i)⟩
  | cons hd tl ih =>
    intro r h
    obtain ⟨k, v⟩ := hd
    obtain ⟨w, tr, htl, hr, hcase⟩ := buildPathsBase_cons_ok base k v tl r h
    subst hr
    obtain ⟨hlen, hget⟩ := ih tr htl
    refine ⟨by simp [hlen], ?_⟩
    intro i hi hi2
    cases i with
    | zero =>
      have e1 : ((k, v) :: tl).get ⟨0, hi⟩ = (k, v) := rfl
      have e2 : ((k, w) :: tr).get ⟨0, hi2⟩ = (k, w) := rfl
      rw [e1, e2]
      constructor
      · intro hk
        rcases hcase with ⟨_, hw⟩ | ⟨hks, _⟩
        · subst hw
          rfl
        · rw [hk] at hks
          exact Bool.noConfusion hks
      · intro hk
        rcases hcase with ⟨hks, _⟩ | ⟨_, b, s, hb, hv, hw⟩
        · rw [hk] at hks
          exact Bool.noConfusion hks
        · subst hw
          exact ⟨b, s, hb, hv, rfl⟩
    | succ j =>
      exact hget j (Nat.lt_of_succ_lt_succ hi) (Nat.lt_of_succ_lt_succ hi2)


/-- The expansion loop can only fail with `TypeError`. -/
theorem buildPathsBase_error (base : Val) :
    ∀ (d : List (String × Val)) (e : PyErr), buildPathsBase base d = Except.error e →
      e = PyErr.typeError := by
  intro d
  induction d with
  | nil =>
    intro e h
    exact Except.noConfusion h
  | cons hd tl ih =>
    intro e h
    obtain ⟨k, v⟩ := hd
    simp only [buildPathsBase] at h
    split at h
    · cases hb : buildPathsBase base tl with
      | error e2 =>
        rw [hb] at h
        simp only [Except.map] at h
        obtain rfl := Except.error.inj h
        exact ih e2 hb
      | ok tr =>
        rw [hb] at h
        simp only [Except.map] at h
        exact Except.noConfusion h
    · cases hp : pyAdd base v with
      | error e2 =>
        rw [hp] at h
        obtain rfl := Except.error.inj h
        exact pyAdd_error base v e2 hp
      | ok w =>
        rw [hp] at h
        cases hb : buildPathsBase base tl with
        | error e2 =>
          rw [hb] at h
          simp only [Except.map] at h
          obtain rfl := Except.error.inj h
          exact ih e2 hb
        | ok tr =>
          rw [hb] at h
          simp only [Except.map] at h
          exact Except.noConfusion h

/-- A non-skipped mapping value anywhere in the group makes the whole
expansion raise `TypeError`. -/
theorem buildPathsBase_dict_mem (base : Val) :
    ∀ (d : List (String × Val)) (k : String) (m : List (String × Val)),
      (k, Val.dict m) ∈ d → buildSkip k = false →
      buildPathsBase base d = Except.error PyErr.typeError := by
  intro d
  induction d with
  | nil =>
    intro k m hm
    cases hm
  | cons hd tl ih =>
    intro k m hm hk
    obtain ⟨k0, v0⟩ := hd
    rcases List.mem_cons.mp hm with heq | htl
    · injection heq with hk0 hv0
      subst hk0
      subst hv0
      simp only [buildPathsBase, hk, Bool.false_eq_true, if_false, pyAdd_dict]
    · simp only [buildPathsBase]
      split
      · rw [ih k m htl hk]
        rfl
      · cases hp : pyAdd base v0 with
        | error e =>
          rw [pyAdd_error base v0 e hp]
        | ok w =>
          rw [ih k m htl hk]
          rfl

/-- Expansion under the empty base is the identity on string-valued groups. -/
theorem buildPathsBase_empty (d : List (String × String)) :
    buildPathsBase (Val.str "") (strDict d) = Except.ok (strDict d) := by
  induction d with
  | nil => rfl
  | cons hd tl ih =>
    obtain ⟨k, s⟩ := hd
    show buildPathsBase (Val.str "") ((k, Val.str s) :: strDict tl) =
      Except.ok ((k, Val.str s) :: strDict tl)
    simp only [buildPathsBase]
    split
    · rw [ih]
      rfl
    · simp only [pyAdd, String.empty_append]
      rw [ih]
      rfl

/-- Reassigning a present key is visible to a later lookup of that key. -/
theorem lookup_replaceKey (k : String) (v : Val) :
    ∀ (d : List (String × Val)) (w : Val), d.lookup k = some w →
      (replaceKey d k v).lookup k = some v := by
  intro d
  induction d with
  | nil =>
    intro w h
    exact Option.noConfusion h
  | cons hd tl ih =>
    intro w h
    obtain ⟨k0, v0⟩ := hd
    by_cases hk : k = k0
    · subst hk
      simp only [replaceKey, List.map, beq_self_eq_true, if_true]
      simp [List.lookup]
    · have h1 : (k0 == k) = false := beq_eq_false_iff_ne.mpr (Ne.symm hk)
      have h2 : (k == k0) = false := beq_eq_false_iff_ne.mpr hk
      have h3 : List.lookup k tl = some w := by
        simpa [List.lookup, h2] using h
      simp only [replaceKey, List.map, h1, Bool.false_eq_true, if_false]
      simp only [List.lookup, h2]
      exact ih w h3

/-- A successful `_build_paths(config["paths"])` call means the value was a
mapping that expanded successfully. -/
theorem buildPathsVal_ok (env : Option String) (pv : Val) (built : List (String × Val))
    (h : buildPathsVal env pv = Except.ok built) :
    ∃ d0, pv = Val.dict d0 ∧ _build_paths env d0 = Except.ok built := by
  cases pv with
  | str s => exact Except.noConfusion h
  | dict d0 => exact ⟨d0, rfl, h⟩


/-- Inversion of a successful load: the document parsed to a dict holding
`paths`, expansion and validation succeeded, and the result is the full
document with `paths` replaced by the expanded group. -/
theorem load_config_ok (env : Option String) (fs : String → Bool)
    (src : Except PyErr (Option Val)) (c : Val)
    (h : load_config env fs src = Except.ok c) :
    ∃ conf pv built, src = Except.ok (some (Val.dict conf)) ∧
      conf.lookup "paths" = some pv ∧ buildPathsVal env pv = Except.ok built ∧
      _check_paths_exist fs built = Except.ok true ∧
      c = Val.dict (replaceKey conf "paths" (Val.dict built)) := by
  cases src with
  | error e => exact Except.noConfusion h
  | ok o =>
    cases o with
    | none => exact Except.noConfusion h
    | some pres =>
      cases pres with
      | str s => exact Except.noConfusion h
      | dict conf =>
        simp only [load_config] at h
        split at h
        · exact Except.noConfusion h
        · rename_i pv hq
          split at h
          · exact Except.noConfusion h
          · rename_i built hb
            split at h
            · exact Except.noConfusion h
            · rename_i bl hc
              obtain rfl := check_ok_true fs built bl hc
              rw [if_pos rfl] at h
              exact ⟨conf, pv, built, rfl, hq, hb, hc, (Except.ok.inj h).symm⟩

/-- On a string-valued group, `_check_paths_exist` is decided by the first
eligible entry whose path does not exist, in iteration order. -/
theorem check_find (fs : String → Bool) :
    ∀ d : List (String × String),
      _check_paths_exist fs (strDict d) =
        match d.find? (fun p => eligible p.1 p.2 && !(fs p.2)) with
        | some p => Except.error (PyErr.fileNotFound p.1 p.2)
        | none => Except.ok true := by
  intro d
  induction d with
  | nil => rfl
  | cons hd tl ih =>
    obtain ⟨k, s⟩ := hd
    show _check_paths_exist fs ((k, Val.str s) :: strDict tl) = _
    simp only [_check_paths_exist, List.find?]
    rcases Bool.eq_false_or_eq_true (strContains k "filename") with hf | hf
    · have he : (eligible k s && !(fs s)) = false := by
        simp [eligible, hf]
      simp only [hf, if_true, he, ih]
    · rcases Bool.eq_false_or_eq_true (k == "home" && (s == "")) with hh | hh
      · have he : (eligible k s && !(fs s)) = false := by
          simp [eligible, hf, hh]
        have hg : (k == "home" && isEmptyStr (Val.str s)) = true := by
          simpa [isEmptyStr] using hh
        simp only [hf, Bool.false_eq_true, if_false, hg, if_true, he, ih]
      · have he : eligible k s = true := by
          simp [eligible, hf, hh]
        have hg : (k == "home" && isEmptyStr (Val.str s)) = false := by
          simpa [isEmptyStr] using hh
        rcases Bool.eq_false_or_eq_true (fs s) with hfs | hfs
        · have hb : (eligible k s && !(fs s)) = false := by
            simp [he, hfs]
          simp only [hb]
          simp only [hf, Bool.false_eq_true, if_false, hg, hfs, if_true, ih]
        · have hb : (eligible k s && !(fs s)) = true := by
            simp [he, hfs]
          simp only [hb]
          simp only [hf, Bool.false_eq_true, if_false, hg, hfs, if_true]


/-- C1: In store-selection mode, loading selects the PathGroup named by
the store-selector environment variable, with the fixed default
identifier `lustre` when the variable is unset; the selected group is
validated without prefix-expansion and the document is returned with
`paths` replaced by that group verbatim; an identifier absent from the
mapping fails with an unknown-store error naming the invalid
identifier. -/
theorem store_selection_mode (storeEnv : Option String) (fs : String → Bool)
    (conf stores : List (String × Val))
    (hp : conf.lookup "paths" = some (Val.dict stores)) :
    (stores.lookup (storeEnv.getD "lustre") = none →
      load_config_store storeEnv fs (Except.ok (some (Val.dict conf))) =
        Except.error (PyErr.unknownStore (storeEnv.getD "lustre"))) ∧
    (∀ grp, stores.lookup (storeEnv.getD "lustre") = some (Val.dict grp) →
      _check_paths_exist fs grp = Except.ok true →
      load_config_store storeEnv fs (Except.ok (some (Val.dict conf))) =
        Except.ok (Val.dict (replaceKey conf "paths" (Val.dict grp)))) := by
  constructor
  · intro hnone
    simp only [load_config_store, hp, hnone]
  · intro grp hsome hchk
    simp only [load_config_store, hp, hsome, hchk]

/-- Witness for C1, the spec's concrete scenarios B and C: with the
selector unset the default `lustre` group is selected and returned in
place of `paths`; with the selector set to `nope` loading fails with the
unknown-store error naming `nope`. -/
theorem store_selection_mode_witness :
    load_config_store none (fun s => s == "/tmp/x")
        (Except.ok (some (Val.dict [("paths",
          Val.dict [("lustre", Val.dict [("home", Val.str "/tmp/x")]),
                    ("pticlima", Val.dict [("home", Val.str "/other")])])]))) =
      Except.ok (Val.dict (replaceKey [("paths",
          Val.dict [("lustre", Val.dict [("home", Val.str "/tmp/x")]),
                    ("pticlima", Val.dict [("home", Val.str "/other")])])]
        "paths" (Val.dict [("home", Val.str "/tmp/x")]))) ∧
    load_config_store (some "nope") (fun s => s == "/tmp/x")
        (Except.ok (some (Val.dict [("paths",
          Val.dict [("lustre", Val.dict [("home", Val.str "/tmp/x")]),
                    ("pticlima", Val.dict [("home", Val.str "/other")])])]))) =
      Except.error (PyErr.unknownStore "nope") := by
  constructor
  · exact (store_selection_mode none (fun s => s == "/tmp/x")
      [("paths", Val.dict [("lustre", Val.dict [("home", Val.str "/tmp/x")]),
                           ("pticlima", Val.dict [("home", Val.str "/other")])])]
      [("lustre", Val.dict [("home", Val.str "/tmp/x")]),
       ("pticlima", Val.dict [("home", Val.str "/other")])] rfl).2
      [("home", Val.str "/tmp/x")] rfl rfl
  · exact (store_selection_mode (some "nope") (fun s => s == "/tmp/x")
      [("paths", Val.dict [("lustre", Val.dict [("home", Val.str "/tmp/x")]),
                           ("pticlima", Val.dict [("home", Val.str "/other")])])]
      [("lustre", Val.dict [("home", Val.str "/tmp/x")]),
       ("pticlima", Val.dict [("home", Val.str "/other")])] rfl).1 rfl

/-- C2: After a successful flat-mode load, every value of the returned
`paths` group whose key does not contain `filename` and which is not the
empty-string `home` value is a string naming a filesystem entry that
existed at validation; every pair under a `filename`-bearing key of the
input group is returned verbatim, neither expanded nor checked. -/
theorem load_validated_paths (env : Option String) (fs : String → Bool)
    (src : Except PyErr (Option Val)) (c pd : List (String × Val))
    (h : load_config env fs src = Except.ok (Val.dict c))
    (hp : c.lookup "paths" = some (Val.dict pd)) :
    (∀ k v, (k, v) ∈ pd → strContains k "filename" = false →
      ¬(k = "home" ∧ v = Val.str "") → ∃ s, v = Val.str s ∧ fs s = true) ∧
    (∀ conf pd0, src = Except.ok (some (Val.dict conf)) →
      conf.lookup "paths" = some (Val.dict pd0) →
      ∀ k v, (k, v) ∈ pd0 → strContains k "filename" = true → (k, v) ∈ pd) := by
  obtain ⟨conf1, pv, built, hsrc, hq, hb, hchk, hc⟩ := load_config_ok env fs src _ h
  injection hc with hc1
  have hlk : (replaceKey conf1 "paths" (Val.dict built)).lookup "paths" =
      some (Val.dict built) := lookup_replaceKey "paths" (Val.dict built) conf1 pv hq
  rw [hc1] at hp
  rw [hlk] at hp
  have hpd : pd = built := (Val.dict.inj (Option.some.inj hp)).symm
  subst hpd
  constructor
  · exact check_ok_mem fs pd hchk
  · intro conf pd0 hsrc0 hq0 k v hmem hfk
    rw [hsrc0] at hsrc
    have hconf : conf1 = conf :=
      Val.dict.inj (Option.some.inj (Except.ok.inj hsrc.symm))
    subst hconf
    rw [hq] at hq0
    obtain ⟨d0, hd0, hbd⟩ := buildPathsVal_ok env pv pd hb
    rw [hd0] at hq0
    have hd0pd0 : d0 = pd0 := Val.dict.inj (Option.some.inj hq0)
    subst hd0pd0
    have hskip : buildSkip k = true := by
      simp [buildSkip, hfk]
    exact buildPathsBase_mem_skip _ d0 pd hbd k v hmem hskip

/-- Witness for C2: a concrete successful load in which the non-exempt
`data` value exists on the recorded filesystem and the `out_filename`
pair of the input group reappears verbatim in the result. -/
theorem load_validated_paths_witness :
    (∃ s, (Val.str "/b/d" : Val) = Val.str s ∧
      (fun t => t == "/b" || t == "/b/d") s = true) ∧
    ("out_filename", Val.str "x*.nc") ∈
      [("home", Val.str "/b"), ("data", Val.str "/b/d"),
       ("out_filename", Val.str "x*.nc")] := by
  have h := load_validated_paths none (fun t => t == "/b" || t == "/b/d")
    (Except.ok (some (Val.dict [("paths",
      Val.dict [("home", Val.str "/b"), ("data", Val.str "/d"),
                ("out_filename", Val.str "x*.nc")])])))
    [("paths", Val.dict [("home", Val.str "/b"), ("data", Val.str "/b/d"),
                         ("out_filename", Val.str "x*.nc")])]
    [("home", Val.str "/b"), ("data", Val.str "/b/d"),
     ("out_filename", Val.str "x*.nc")] rfl rfl
  constructor
  · exact h.1 "data" (Val.str "/b/d") (by simp) (by decide) (by simp)
  · exact h.2 [("paths", Val.dict [("home", Val.str "/b"), ("data", Val.str "/d"),
               ("out_filename", Val.str "x*.nc")])]
      [("home", Val.str "/b"), ("data", Val.str "/d"),
       ("out_filename", Val.str "x*.nc")] rfl rfl
      "out_filename" (Val.str "x*.nc") (by simp) (by decide)

/-- C3: A successful expansion keeps every key in place and rewrites
exactly the entries whose key is not `home`, not `dir_output` and does
not contain `filename`: each such value becomes the plain string
concatenation of the resolved base directory and the existing value,
with no separator normalization. -/
theorem build_paths_rewrites (env : Option String) (d r : List (String × Val))
    (h : _build_paths env d = Except.ok r) :
    r.length = d.length ∧
    ∀ i (hi : i < d.length) (hi2 : i < r.length),
      (buildSkip (d.get ⟨i, hi⟩).1 = true → r.get ⟨i, hi2⟩ = d.get ⟨i, hi⟩) ∧
      (buildSkip (d.get ⟨i, hi⟩).1 = false →
        ∃ b s, resolveBase env d = Val.str b ∧ (d.get ⟨i, hi⟩).2 = Val.str s ∧
          r.get ⟨i, hi2⟩ = ((d.get ⟨i, hi⟩).1, Val.str (b ++ s))) :=
  buildPathsBase_get (resolveBase env d) d r h

/-- Witness for C3: a trailing separator on the base and a leading one
on the fragment coexist verbatim (`/tmp/x/` + `/d` = `/tmp/x//d`), the
spec's scenario A shape with an added duplicate separator. -/
theorem build_paths_rewrites_witness :
    _build_paths none [("home", Val.str "/tmp/x/"), ("data", Val.str "/d")] =
      Except.ok [("home", Val.str "/tmp/x/"), ("data", Val.str "/tmp/x//d")] ∧
    (∃ b s,
      resolveBase none [("home", Val.str "/tmp/x/"), ("data", Val.str "/d")] = Val.str b ∧
      ([("home", Val.str "/tmp/x/"), ("data", Val.str "/d")].get ⟨1, by decide⟩).2 =
        Val.str s ∧
      [("home", Val.str "/tmp/x/"), ("data", Val.str "/tmp/x//d")].get ⟨1, by decide⟩ =
        (([("home", Val.str "/tmp/x/"), ("data", Val.str "/d")].get ⟨1, by decide⟩).1,
          Val.str (b ++ s))) :=
  ⟨rfl, ((build_paths_rewrites none
      [("home", Val.str "/tmp/x/"), ("data", Val.str "/d")]
      [("home", Val.str "/tmp/x/"), ("data", Val.str "/tmp/x//d")] rfl).2
    1 (by decide) (by decide)).2 (by decide)⟩

/-- C4: On a string-valued PathGroup, validation is decided by the first
entry, in the mapping's iteration order, that is eligible (key without
`filename`, not `home` holding the empty string) and whose path does not
exist: it fails with a `FileNotFoundError` naming that key and value,
and succeeds exactly when no such entry exists; the empty PathGroup
validates successfully. -/
theorem check_paths_first_missing (fs : String → Bool) (d : List (String × String)) :
    (_check_paths_exist fs (strDict d) =
      match d.find? (fun p => eligible p.1 p.2 && !(fs p.2)) with
      | some p => Except.error (PyErr.fileNotFound p.1 p.2)
      | none => Except.ok true) ∧
    (_check_paths_exist fs (strDict d) = Except.ok true ↔
      ∀ p ∈ d, eligible p.1 p.2 = true → fs p.2 = true) ∧
    _check_paths_exist fs [] = Except.ok true := by
  refine ⟨check_find fs d, ?_, rfl⟩
  rw [check_find fs d]
  cases hf : d.find? (fun p => eligible p.1 p.2 && !(fs p.2)) with
  | none =>
    simp only [true_iff]
    intro p hp he
    have hnp := List.find?_eq_none.mp hf p hp
    simpa [he] using hnp
  | some q =>
    constructor
    · intro habs
      exact Except.noConfusion habs
    · intro hall
      have hmem := List.mem_of_find?_eq_some hf
      have hq := List.find?_some hf
      simp only [Bool.and_eq_true, Bool.not_eq_true'] at hq
      have hcontra := hall q hmem hq.1
      rw [hq.2] at hcontra
      exact Bool.noConfusion hcontra

/-- Witness for C4: a one-entry group pointing at a missing path fails
naming exactly that key and value. -/
theorem check_paths_first_missing_witness :
    _check_paths_exist (fun _ => false) (strDict [("data", "/missing")]) =
      Except.error (PyErr.fileNotFound "data" "/missing") := by
  rw [(check_paths_first_missing (fun _ => false) [("data", "/missing")]).1]
  rfl

/-- Counterexample for C5: the claim says an override set to the empty
string falls back to `home`, but `os.getenv` returns the set value even
when it is empty, so the group with `home = "/a"` and `data = "/d"`
expands `data` to `/d` under the empty override and to `/a/d` under an
unset override. -/
theorem base_override_empty_counterexample :
    _build_paths (some "") [("home", Val.str "/a"), ("data", Val.str "/d")] =
      Except.ok [("home", Val.str "/a"), ("data", Val.str "/d")] ∧
    _build_paths none [("home", Val.str "/a"), ("data", Val.str "/d")] =
      Except.ok [("home", Val.str "/a"), ("data", Val.str "/a/d")] ∧
    _build_paths (some "") [("home", Val.str "/a"), ("data", Val.str "/d")] ≠
      _build_paths none [("home", Val.str "/a"), ("data", Val.str "/d")] := by
  refine ⟨rfl, rfl, ?_⟩
  intro h
  have h2 : (Except.ok [("home", Val.str "/a"), ("data", Val.str "/d")] :
      Except PyErr (List (String × Val))) =
      Except.ok [("home", Val.str "/a"), ("data", Val.str "/a/d")] := h
  simp at h2

/-- C5 as amended: the environment override is the base whenever the
variable is set, even when set to the empty string; only when it is
unset is the group's own `home` value used, and the empty string when
`home` is absent too. Expansion under the empty-string override leaves
every string-valued group unchanged, which is not the expansion under a
non-empty `home`. -/
theorem base_override_resolution (s : String) (env : Option String)
    (d : List (String × Val)) (d0 : List (String × String)) :
    _build_paths env d = buildPathsBase (resolveBase env d) d ∧
    resolveBase (some s) d = Val.str s ∧
    resolveBase none d = (d.lookup "home").getD (Val.str "") ∧
    _build_paths (some "") (strDict d0) = Except.ok (strDict d0) := by
  refine ⟨rfl, rfl, ?_, buildPathsBase_empty d0⟩
  cases h : d.lookup "home" with
  | none => simp [resolveBase, h]
  | some v => simp [resolveBase, h]

/-- Witness for C5 as amended: under the empty-string override the
expansion of a group with non-empty `home` returns the group unchanged. -/
theorem base_override_resolution_witness :
    _build_paths (some "") (strDict [("home", "/a"), ("data", "/d")]) =
      Except.ok (strDict [("home", "/a"), ("data", "/d")]) :=
  (base_override_resolution "" (some "")
    [("home", Val.str "/a"), ("data", Val.str "/d")]
    [("home", "/a"), ("data", "/d")]).2.2.2


/-- C6: Loading propagates every failure to the caller unmodified —
a missing or unparsable file (an error outcome of the read/parse stage),
an empty document, an absent `paths` entry (a fatal lookup error with no
default substituted) and a failed existence check — and a successful
load is always the full document with `paths` replaced, never a
partially-resolved or empty substitute. -/
theorem load_config_error_propagation (env : Option String) (fs : String → Bool) :
    (∀ e, load_config env fs (Except.error e) = Except.error e) ∧
    (load_config env fs (Except.ok none) = Except.error PyErr.typeError) ∧
    (∀ conf, conf.lookup "paths" = none →
      load_config env fs (Except.ok (some (Val.dict conf))) =
        Except.error (PyErr.keyError "paths")) ∧
    (∀ conf pv built e, conf.lookup "paths" = some pv →
      buildPathsVal env pv = Except.ok built →
      _check_paths_exist fs built = Except.error e →
      load_config env fs (Except.ok (some (Val.dict conf))) = Except.error e) ∧
    (∀ src c, load_config env fs src = Except.ok c →
      ∃ conf built, src = Except.ok (some (Val.dict conf)) ∧
        (∃ pv, conf.lookup "paths" = some pv) ∧
        _check_paths_exist fs built = Except.ok true ∧
        c = Val.dict (replaceKey conf "paths" (Val.dict built))) := by
  refine ⟨fun e => rfl, rfl, ?_, ?_, ?_⟩
  · intro conf hc
    simp only [load_config, hc]
  · intro conf pv built e hc hb hchk
    simp only [load_config, hc, hb, hchk]
  · intro src c h
    obtain ⟨conf, pv, built, hsrc, hq, hb, hchk, hcv⟩ := load_config_ok env fs src c h
    exact ⟨conf, built, hsrc, ⟨pv, hq⟩, hchk, hcv⟩

/-- Witness for C6: a document without a `paths` entry fails with the
lookup error, and a well-formed document loads to the full resolved
document. -/
theorem load_config_error_propagation_witness :
    load_config none (fun _ => true)
        (Except.ok (some (Val.dict [("models", Val.str "ecmwf")]))) =
      Except.error (PyErr.keyError "paths") ∧
    (∃ conf built,
      (Except.ok (some (Val.dict [("paths", Val.dict [("data", Val.str "/d")])])) :
          Except PyErr (Option Val)) = Except.ok (some (Val.dict conf)) ∧
      (∃ pv, conf.lookup "paths" = some pv) ∧
      _check_paths_exist (fun _ => true) built = Except.ok true ∧
      Val.dict [("paths", Val.dict [("data", Val.str "/d")])] =
        Val.dict (replaceKey conf "paths" (Val.dict built))) := by
  constructor
  · exact (load_config_error_propagation none (fun _ => true)).2.2.1
      [("models", Val.str "ecmwf")] rfl
  · exact (load_config_error_propagation none (fun _ => true)).2.2.2.2
      (Except.ok (some (Val.dict [("paths", Val.dict [("data", Val.str "/d")])])))
      (Val.dict [("paths", Val.dict [("data", Val.str "/d")])]) rfl

/-- C7: When the resolved base directory is the empty string, expansion
is the identity on every string-valued PathGroup, and applying it again
to the result returns the same result. -/
theorem build_empty_base_identity (env : Option String) (d : List (String × String))
    (h : resolveBase env (strDict d) = Val.str "") :
    _build_paths env (strDict d) = Except.ok (strDict d) ∧
    ∀ r, _build_paths env (strDict d) = Except.ok r →
      _build_paths env r = Except.ok r := by
  have h1 : _build_paths env (strDict d) = Except.ok (strDict d) := by
    show buildPathsBase (resolveBase env (strDict d)) (strDict d) = _
    rw [h]
    exact buildPathsBase_empty d
  refine ⟨h1, ?_⟩
  intro r hr
  rw [h1] at hr
  obtain rfl := Except.ok.inj hr
  exact h1

/-- Witness for C7: a group without `home` under an unset override
resolves the empty base and is returned unchanged, twice. -/
theorem build_empty_base_identity_witness :
    _build_paths none (strDict [("data", "/d")]) =
      Except.ok (strDict [("data", "/d")]) ∧
    _build_paths none [("data", Val.str "/d")] =
      Except.ok [("data", Val.str "/d")] := by
  constructor
  · exact (build_empty_base_identity none [("data", "/d")] rfl).1
  · exact (build_empty_base_identity none [("data", "/d")] rfl).2
      [("data", Val.str "/d")] rfl

/-- C8: `_check_paths_exist` never returns `False` — a returned Boolean
is `True` — so the fallback branch of `load_config` returning the empty
dict is unreachable: a successful load is always the full document with
its `paths` entry present and replaced by the expanded group. -/
theorem check_never_false (fs : String → Bool) (d : List (String × Val)) :
    (∀ b, _check_paths_exist fs d = Except.ok b → b = true) ∧
    (∀ env src c, load_config env fs src = Except.ok c →
      ∃ conf built pv, src = Except.ok (some (Val.dict conf)) ∧
        conf.lookup "paths" = some pv ∧
        c = Val.dict (replaceKey conf "paths" (Val.dict built))) := by
  refine ⟨fun b h => check_ok_true fs d b h, ?_⟩
  intro env src c h
  obtain ⟨conf, pv, built, hsrc, hq, hb, hchk, hcv⟩ := load_config_ok env fs src c h
  exact ⟨conf, built, pv, hsrc, hq, hcv⟩

/-- Witness for C8: a concrete check returning a Boolean returns `True`,
and a concrete successful load is the full resolved document. -/
theorem check_never_false_witness :
    (true : Bool) = true ∧
    (∃ conf built pv,
      (Except.ok (some (Val.dict [("paths", Val.dict [("data", Val.str "/d")])])) :
          Except PyErr (Option Val)) = Except.ok (some (Val.dict conf)) ∧
      conf.lookup "paths" = some pv ∧
      Val.dict [("paths", Val.dict [("data", Val.str "/d")])] =
        Val.dict (replaceKey conf "paths" (Val.dict built))) := by
  constructor
  · exact (check_never_false (fun _ => true) [("data", Val.str "/d")]).1 true rfl
  · exact (check_never_false (fun _ => true) [("data", Val.str "/d")]).2 none
      (Except.ok (some (Val.dict [("paths", Val.dict [("data", Val.str "/d")])])))
      (Val.dict [("paths", Val.dict [("data", Val.str "/d")])]) rfl

/-- C9: A successful expansion returns a mapping with exactly the key
list of its input — no key added, removed or moved — and the values
under `home`, `dir_output` and every key containing `filename` are the
input values, pair for pair. -/
theorem build_paths_frame (env : Option String) (d r : List (String × Val))
    (h : _build_paths env d = Except.ok r) :
    r.map Prod.fst = d.map Prod.fst ∧
    (∀ k v, (k, v) ∈ d → buildSkip k = true → (k, v) ∈ r) ∧
    ∀ i (hi : i < d.length) (hi2 : i < r.length),
      buildSkip (d.get ⟨i, hi⟩).1 = true → r.get ⟨i, hi2⟩ = d.get ⟨i, hi⟩ := by
  refine ⟨buildPathsBase_keys _ d r h, buildPathsBase_mem_skip _ d r h, ?_⟩
  intro i hi hi2 hk
  exact ((buildPathsBase_get _ d r h).2 i hi hi2).1 hk

/-- Witness for C9: the key lists agree and the exempt `out_filename`
pair survives expansion verbatim. -/
theorem build_paths_frame_witness :
    [("home", Val.str "/b"), ("out_filename", Val.str "x.nc"),
     ("data", Val.str "/b/d")].map Prod.fst =
      [("home", Val.str "/b"), ("out_filename", Val.str "x.nc"),
       ("data", Val.str "/d")].map Prod.fst ∧
    ("out_filename", Val.str "x.nc") ∈
      [("home", Val.str "/b"), ("out_filename", Val.str "x.nc"),
       ("data", Val.str "/b/d")] := by
  have h := build_paths_frame none
    [("home", Val.str "/b"), ("out_filename", Val.str "x.nc"), ("data", Val.str "/d")]
    [("home", Val.str "/b"), ("out_filename", Val.str "x.nc"), ("data", Val.str "/b/d")]
    rfl
  exact ⟨h.1, h.2.1 "out_filename" (Val.str "x.nc") (by simp) (by decide)⟩

/-- C10: A PathGroup holding, under a key that is not `home`, not
`dir_output` and without `filename` in it, a value that is a mapping
rather than a string makes `_build_paths` raise `TypeError` at the
string concatenation, and `load_config` on a document whose `paths`
entry is such a group fails with that `TypeError`: every non-exempt
value under `paths` must be a string. -/
theorem build_paths_dict_type_error (env : Option String) (d : List (String × Val))
    (k : String) (m : List (String × Val))
    (hmem : (k, Val.dict m) ∈ d) (hk : buildSkip k = false) :
    _build_paths env d = Except.error PyErr.typeError ∧
    ∀ fs conf, conf.lookup "paths" = some (Val.dict d) →
      load_config env fs (Except.ok (some (Val.dict conf))) =
        Except.error PyErr.typeError := by
  have h1 : _build_paths env d = Except.error PyErr.typeError :=
    buildPathsBase_dict_mem (resolveBase env d) d k m hmem hk
  refine ⟨h1, ?_⟩
  intro fs conf hconf
  simp only [load_config, hconf, buildPathsVal, h1]

/-- Witness for C10: the store-selection document shape loaded in flat
mode — `paths` maps store names to nested groups — raises `TypeError`. -/
theorem build_paths_dict_type_error_witness :
    _build_paths none [("lustre", Val.dict [("home", Val.str "/tmp/x")]),
                       ("pticlima", Val.dict [("home", Val.str "/other")])] =
      Except.error PyErr.typeError ∧
    load_config none (fun _ => true)
        (Except.ok (some (Val.dict [("paths",
          Val.dict [("lustre", Val.dict [("home", Val.str "/tmp/x")]),
                    ("pticlima", Val.dict [("home", Val.str "/other")])])]))) =
      Except.error PyErr.typeError := by
  have h := build_paths_dict_type_error none
    [("lustre", Val.dict [("home", Val.str "/tmp/x")]),
     ("pticlima", Val.dict [("home", Val.str "/other")])]
    "lustre" [("home", Val.str "/tmp/x")] (List.mem_cons_self _ _) (by decide)
  exact ⟨h.1, h.2 (fun _ => true)
    [("paths", Val.dict [("lustre", Val.dict [("home", Val.str "/tmp/x")]),
                         ("pticlima", Val.dict [("home", Val.str "/other")])])] rfl⟩

end Config
